import Mathlib

/-!
Verification of the OpenCSD binding layer (src/arm/opencsd_binding.c and
opencsd_binding.h): the event ring buffer, the generic-element classifier
callback, and the session-level operations.  Machine integers are modelled
as Nat (unsigned) and Int (signed); external engine behaviour (OpenCSD
library calls) is passed in as explicit oracle parameters.
-/

set_option maxRecDepth 10000

/-- Event kinds, mirroring mtrace_cs_event_kind_t in opencsd_binding.h. -/
inductive MtraceCsEventKind
  | instruction_range
  | call
  | ret
  | trace_on
  | trace_off
  | exception
  | exception_ret
deriving DecidableEq, Repr

/-- One decoded event, mirroring mtrace_cs_event_t in opencsd_binding.h.
Unsigned 64/32-bit fields are Nat; cpu is a C int, modelled as Int. -/
structure MtraceCsEvent where
  kind : MtraceCsEventKind
  timestamp : Nat
  from_addr : Nat
  to_addr : Nat
  cpu : Int
  exception_number : Nat
deriving DecidableEq, Repr

/-- The all-zero event value, as produced by memset(&ev, 0, sizeof(ev));
also stands for the indeterminate contents of unwritten buffer slots. -/
def zeroEvent : MtraceCsEvent :=
  { kind := .instruction_range, timestamp := 0, from_addr := 0, to_addr := 0,
    cpu := 0, exception_number := 0 }

/-! ### List indexing helpers (C array reads and writes) -/

theorem getD_set_self (l : List MtraceCsEvent) (i : Nat) (a d : MtraceCsEvent)
    (h : i < l.length) : (l.set i a).getD i d = a := by
  induction l generalizing i with
  | nil => simp at h
  | cons x xs ih =>
    cases i with
    | zero => simp [List.getD]
    | succ j =>
      simp only [List.set, List.getD_cons_succ]
      exact ih j (by simpa using h)

theorem getD_set_ne (l : List MtraceCsEvent) (i j : Nat) (a d : MtraceCsEvent)
    (h : i ≠ j) : (l.set i a).getD j d = l.getD j d := by
  induction l generalizing i j with
  | nil => simp [List.getD]
  | cons x xs ih =>
    cases i with
    | zero =>
      cases j with
      | zero => exact absurd rfl h
      | succ k => simp [List.getD]
    | succ i2 =>
      cases j with
      | zero => simp [List.getD]
      | succ k =>
        simp only [List.set, List.getD_cons_succ]
        exact ih i2 k (fun hh => h (by simp [hh]))

theorem getD_append_left (l1 l2 : List MtraceCsEvent) (i : Nat) (d : MtraceCsEvent)
    (h : i < l1.length) : (l1 ++ l2).getD i d = l1.getD i d := by
  induction l1 generalizing i with
  | nil => simp at h
  | cons x xs ih =>
    cases i with
    | zero => simp [List.getD]
    | succ j =>
      simp only [List.cons_append, List.getD_cons_succ]
      exact ih j (by simpa using h)

/-- The memmove in event_buf_push: copy len elements of l starting at
index src to the region starting at index dst, reading from the original
list (source and destination regions do not overlap in this use). -/
def listCopy (l : List MtraceCsEvent) (src dst len : Nat) : List MtraceCsEvent :=
  (List.range len).foldl (fun acc i => acc.set (dst + i) (l.getD (src + i) zeroEvent)) l

theorem listCopy_zero (l : List MtraceCsEvent) (src dst : Nat) :
    listCopy l src dst 0 = l := rfl

theorem listCopy_succ (l : List MtraceCsEvent) (src dst n : Nat) :
    listCopy l src dst (n + 1)
      = (listCopy l src dst n).set (dst + n) (l.getD (src + n) zeroEvent) := by
  simp [listCopy, List.range_succ]

theorem listCopy_length (l : List MtraceCsEvent) (src dst n : Nat) :
    (listCopy l src dst n).length = l.length := by
  induction n with
  | zero => rfl
  | succ k ih => simp [listCopy_succ, ih]

theorem getD_listCopy_lt (l : List MtraceCsEvent) (src dst n j : Nat) (d : MtraceCsEvent)
    (h : j < dst) : (listCopy l src dst n).getD j d = l.getD j d := by
  induction n with
  | zero => rfl
  | succ k ih =>
    rw [listCopy_succ, getD_set_ne _ _ _ _ _ (by omega), ih]

theorem getD_listCopy_ge (l : List MtraceCsEvent) (src dst n j : Nat) (d : MtraceCsEvent)
    (h : dst + n ≤ j) : (listCopy l src dst n).getD j d = l.getD j d := by
  induction n with
  | zero => rfl
  | succ k ih =>
    rw [listCopy_succ, getD_set_ne _ _ _ _ _ (by omega), ih (by omega)]

theorem getD_listCopy_in (l : List MtraceCsEvent) (src dst n i : Nat) (d : MtraceCsEvent)
    (hi : i < n) (hlen : dst + i < l.length) :
    (listCopy l src dst n).getD (dst + i) d = l.getD (src + i) zeroEvent := by
  induction n with
  | zero => omega
  | succ k ih =>
    rw [listCopy_succ]
    by_cases hik : i = k
    · subst hik
      exact getD_set_self _ _ _ _ (by rw [listCopy_length]; omega)
    · rw [getD_set_ne _ _ _ _ _ (by omega)]
      exact ih (by omega)

/-! ### The event ring buffer (struct fields event_buf / cap / head / tail) -/

/-- The ring-buffer portion of struct mtrace_opencsd_decoder:
event_buf (backing store), event_buf_cap, event_buf_head (next slot to
write), event_buf_tail (next slot to read). -/
structure EventBuf where
  event_buf : List MtraceCsEvent
  event_buf_cap : Nat
  event_buf_head : Nat
  event_buf_tail : Nat
deriving DecidableEq, Repr

namespace EventBuf

/-- Structural well-formedness maintained by all buffer operations. -/
def Inv (b : EventBuf) : Prop :=
  b.event_buf.length = b.event_buf_cap ∧
  0 < b.event_buf_cap ∧
  b.event_buf_head < b.event_buf_cap ∧
  b.event_buf_tail < b.event_buf_cap

instance (b : EventBuf) : Decidable b.Inv := by
  unfold Inv; infer_instance

/-- Number of live elements in the ring. -/
def size (b : EventBuf) : Nat :=
  if b.event_buf_tail ≤ b.event_buf_head then b.event_buf_head - b.event_buf_tail
  else b.event_buf_head + b.event_buf_cap - b.event_buf_tail

/-- The i-th live element counted from the read position (circular read). -/
def read (b : EventBuf) (i : Nat) : MtraceCsEvent :=
  if b.event_buf_tail + i < b.event_buf_cap then
    b.event_buf.getD (b.event_buf_tail + i) zeroEvent
  else
    b.event_buf.getD (b.event_buf_tail + i - b.event_buf_cap) zeroEvent

/-- Abstraction function: the live contents of the ring in pop order. -/
def toList (b : EventBuf) : List MtraceCsEvent :=
  (List.range b.size).map b.read

theorem length_toList (b : EventBuf) : b.toList.length = b.size := by
  simp [toList]

theorem getElem_toList (b : EventBuf) (i : Nat) (h : i < b.toList.length) :
    b.toList[i] = b.read i := by
  simp [toList]

end EventBuf

/-- Fresh ring buffer as allocated by mtrace_opencsd_create: cap slots,
head = tail = 0, contents indeterminate (malloc). -/
def mkEventBuf (cap : Nat) : EventBuf :=
  { event_buf := List.replicate cap zeroEvent, event_buf_cap := cap,
    event_buf_head := 0, event_buf_tail := 0 }

/-- event_buf_push from opencsd_binding.c.  allocOk tells whether the
realloc in the growth path succeeds (the allocator is external).  Returns
the C return value (0 success, -1 failure) and the updated buffer; on the
failure path nothing has been written, so the buffer is returned as-is. -/
def event_buf_push (allocOk : Bool) (dec : EventBuf) (ev : MtraceCsEvent) :
    Int × EventBuf :=
  let next_head := (dec.event_buf_head + 1) % dec.event_buf_cap
  if next_head = dec.event_buf_tail then
    if allocOk then
      let new_cap := dec.event_buf_cap * 2
      let new_buf := dec.event_buf ++
        List.replicate (new_cap - dec.event_buf_cap) zeroEvent
      let moved :=
        if dec.event_buf_head < dec.event_buf_tail then
          let old_tail_len := dec.event_buf_cap - dec.event_buf_tail
          (listCopy new_buf dec.event_buf_tail (new_cap - old_tail_len) old_tail_len,
           new_cap - old_tail_len)
        else
          (new_buf, dec.event_buf_tail)
      let next_head2 := (dec.event_buf_head + 1) % new_cap
      (0, { event_buf := moved.1.set dec.event_buf_head ev,
            event_buf_cap := new_cap,
            event_buf_head := next_head2,
            event_buf_tail := moved.2 })
    else
      (-1, dec)
  else
    (0, { dec with event_buf := dec.event_buf.set dec.event_buf_head ev,
                   event_buf_head := next_head })

/-- event_buf_pop from opencsd_binding.c.  Returns the popped event (none
when the ring is empty, in which case the C code returns 0 and leaves the
out-parameter untouched) and the updated buffer. -/
def event_buf_pop (dec : EventBuf) : Option MtraceCsEvent × EventBuf :=
  if dec.event_buf_head = dec.event_buf_tail then
    (none, dec)
  else
    (some (dec.event_buf.getD dec.event_buf_tail zeroEvent),
     { dec with event_buf_tail := (dec.event_buf_tail + 1) % dec.event_buf_cap })

example : (event_buf_push true (mkEventBuf 4) zeroEvent).1 = 0 := by decide
example :
    (event_buf_pop (event_buf_push true (mkEventBuf 4) zeroEvent).2).1
      = some zeroEvent := by decide

/-! ### Unfolding equations for push and pop -/

theorem push_eq_grow_wrap (b : EventBuf) (ev : MtraceCsEvent)
    (hfull : (b.event_buf_head + 1) % b.event_buf_cap = b.event_buf_tail)
    (hw : b.event_buf_head < b.event_buf_tail) :
    event_buf_push true b ev =
      (0, ⟨(listCopy (b.event_buf ++
              List.replicate (b.event_buf_cap * 2 - b.event_buf_cap) zeroEvent)
              b.event_buf_tail
              (b.event_buf_cap * 2 - (b.event_buf_cap - b.event_buf_tail))
              (b.event_buf_cap - b.event_buf_tail)).set b.event_buf_head ev,
           b.event_buf_cap * 2,
           (b.event_buf_head + 1) % (b.event_buf_cap * 2),
           b.event_buf_cap * 2 - (b.event_buf_cap - b.event_buf_tail)⟩) := by
  simp only [event_buf_push, if_pos hfull, if_pos hw, if_true]

theorem push_eq_grow_nowrap (b : EventBuf) (ev : MtraceCsEvent)
    (hfull : (b.event_buf_head + 1) % b.event_buf_cap = b.event_buf_tail)
    (hw : ¬ b.event_buf_head < b.event_buf_tail) :
    event_buf_push true b ev =
      (0, ⟨(b.event_buf ++
              List.replicate (b.event_buf_cap * 2 - b.event_buf_cap) zeroEvent).set
              b.event_buf_head ev,
           b.event_buf_cap * 2,
           (b.event_buf_head + 1) % (b.event_buf_cap * 2),
           b.event_buf_tail⟩) := by
  simp only [event_buf_push, if_pos hfull, if_neg hw, if_true]

theorem push_eq_not_full (allocOk : Bool) (b : EventBuf) (ev : MtraceCsEvent)
    (hnf : (b.event_buf_head + 1) % b.event_buf_cap ≠ b.event_buf_tail) :
    event_buf_push allocOk b ev =
      (0, { b with event_buf := b.event_buf.set b.event_buf_head ev,
                   event_buf_head := (b.event_buf_head + 1) % b.event_buf_cap }) := by
  simp only [event_buf_push, if_neg hnf]

theorem push_eq_alloc_fail (b : EventBuf) (ev : MtraceCsEvent)
    (hfull : (b.event_buf_head + 1) % b.event_buf_cap = b.event_buf_tail) :
    event_buf_push false b ev = (-1, b) := by
  simp [event_buf_push, hfull]

theorem pop_eq_empty (b : EventBuf) (he : b.event_buf_head = b.event_buf_tail) :
    event_buf_pop b = (none, b) := by
  simp only [event_buf_pop, if_pos he]

theorem pop_eq_ne (b : EventBuf) (hne : ¬ b.event_buf_head = b.event_buf_tail) :
    event_buf_pop b =
      (some (b.event_buf.getD b.event_buf_tail zeroEvent),
       { b with event_buf_tail := (b.event_buf_tail + 1) % b.event_buf_cap }) := by
  simp only [event_buf_pop, if_neg hne]

/-! ### Shape lemmas for the abstraction function -/

theorem toList_push_shape (s1 b : EventBuf) (ev : MtraceCsEvent)
    (hsz : s1.size = b.size + 1)
    (hrd : ∀ i, i < b.size → s1.read i = b.read i)
    (hlast : s1.read b.size = ev) :
    s1.toList = b.toList ++ [ev] := by
  unfold EventBuf.toList
  rw [hsz, List.range_succ, List.map_append]
  congr 1
  · exact List.map_congr_left (fun i hi => hrd i (List.mem_range.mp hi))
  · simp [hlast]

theorem toList_pop_shape (b s1 : EventBuf)
    (hsz : b.size = s1.size + 1)
    (hrd : ∀ i, i < s1.size → s1.read i = b.read (i + 1)) :
    b.toList = b.read 0 :: s1.toList := by
  unfold EventBuf.toList
  rw [hsz, List.range_succ_eq_map, List.map_cons, List.map_map]
  congr 1
  exact List.map_congr_left
    (fun i hi => by
      simp only [Function.comp_apply]
      exact (hrd i (List.mem_range.mp hi)).symm)

theorem size_pos_iff (b : EventBuf) (hInv : b.Inv) :
    0 < b.size ↔ b.event_buf_head ≠ b.event_buf_tail := by
  obtain ⟨hlen, hcap, hh, ht⟩ := hInv
  unfold EventBuf.size
  split_ifs <;> omega

/-! ### Functional correctness of push and pop against the abstraction -/

theorem event_buf_push_true_spec (b : EventBuf) (ev : MtraceCsEvent) (hInv : b.Inv) :
    (event_buf_push true b ev).1 = 0 ∧ (event_buf_push true b ev).2.Inv ∧
    (event_buf_push true b ev).2.toList = b.toList ++ [ev] := by
  obtain ⟨buf, cap, head, tail⟩ := b
  obtain ⟨hlen, hcap, hh, ht⟩ := hInv
  dsimp only at hlen hcap hh ht
  by_cases hfull : (head + 1) % cap = tail
  · by_cases hw : head < tail
    · -- growth path, live region wraps: here tail = head + 1
      have htl : tail = head + 1 := by
        rcases Nat.lt_or_ge (head + 1) cap with h1 | h1
        · rw [Nat.mod_eq_of_lt h1] at hfull; omega
        · have h2 : head + 1 = cap := by omega
          rw [h2, Nat.mod_self] at hfull; omega
      rw [push_eq_grow_wrap ⟨buf, cap, head, tail⟩ ev hfull hw]
      dsimp only
      have ht2 : cap * 2 - (cap - tail) = cap + tail := by omega
      have hm2 : (head + 1) % (cap * 2) = head + 1 := Nat.mod_eq_of_lt (by omega)
      have hnb_len :
          (buf ++ List.replicate (cap * 2 - cap) zeroEvent).length = cap * 2 := by
        rw [List.length_append, List.length_replicate, hlen]; omega
      rw [ht2, hm2]
      refine ⟨rfl, ⟨?_, by dsimp only; omega, by dsimp only; omega,
        by dsimp only; omega⟩, ?_⟩
      · dsimp only; rw [List.length_set, listCopy_length, hnb_len]
      apply toList_push_shape
      · unfold EventBuf.size; dsimp only; split_ifs <;> omega
      · intro i hi
        have hi2 : i < cap - 1 := by
          unfold EventBuf.size at hi; dsimp only at hi; split_ifs at hi <;> omega
        unfold EventBuf.read; dsimp only
        by_cases hcase : i < cap - tail
        · rw [if_pos (by omega), if_pos (by omega)]
          rw [getD_set_ne _ _ _ _ _ (by omega)]
          rw [getD_listCopy_in _ _ _ _ _ _ hcase (by rw [hnb_len]; omega)]
          rw [getD_append_left _ _ _ _ (by rw [hlen]; omega)]
        · rw [if_neg (by omega), if_neg (by omega)]
          rw [show cap + tail + i - cap * 2 = tail + i - cap from by omega]
          rw [getD_set_ne _ _ _ _ _ (by omega)]
          rw [getD_listCopy_lt _ _ _ _ _ _ (by omega)]
          rw [getD_append_left _ _ _ _ (by rw [hlen]; omega)]
      · have hszb : EventBuf.size ⟨buf, cap, head, tail⟩ = cap - 1 := by
          unfold EventBuf.size; dsimp only; split_ifs <;> omega
        rw [hszb]
        unfold EventBuf.read; dsimp only
        rw [if_neg (by omega)]
        rw [show cap + tail + (cap - 1) - cap * 2 = head from by omega]
        exact getD_set_self _ _ _ _ (by rw [listCopy_length, hnb_len]; omega)
    · -- growth path, live region linear: here head + 1 = cap, tail = 0
      have hhead : head + 1 = cap := by
        rcases Nat.lt_or_ge (head + 1) cap with h1 | h1
        · rw [Nat.mod_eq_of_lt h1] at hfull; omega
        · omega
      have htail0 : tail = 0 := by
        rw [hhead, Nat.mod_self] at hfull; omega
      subst htail0
      rw [push_eq_grow_nowrap ⟨buf, cap, head, 0⟩ ev hfull hw]
      dsimp only
      have hm2 : (head + 1) % (cap * 2) = cap := by
        rw [hhead]; exact Nat.mod_eq_of_lt (by omega)
      have hnb_len :
          (buf ++ List.replicate (cap * 2 - cap) zeroEvent).length = cap * 2 := by
        rw [List.length_append, List.length_replicate, hlen]; omega
      rw [hm2]
      refine ⟨rfl, ⟨by dsimp only; rw [List.length_set, hnb_len],
        by dsimp only; omega, by dsimp only; omega, by dsimp only; omega⟩, ?_⟩
      apply toList_push_shape
      · unfold EventBuf.size; dsimp only; split_ifs <;> omega
      · intro i hi
        have hi2 : i < cap - 1 := by
          unfold EventBuf.size at hi; dsimp only at hi; split_ifs at hi <;> omega
        unfold EventBuf.read; dsimp only
        rw [if_pos (by omega), if_pos (by omega)]
        simp only [Nat.zero_add]
        rw [getD_set_ne _ _ _ _ _ (by omega)]
        rw [getD_append_left _ _ _ _ (by rw [hlen]; omega)]
      · have hszb : EventBuf.size ⟨buf, cap, head, 0⟩ = cap - 1 := by
          unfold EventBuf.size; dsimp only; split_ifs <;> omega
        rw [hszb]
        unfold EventBuf.read; dsimp only
        rw [if_pos (by omega)]
        simp only [Nat.zero_add]
        rw [show cap - 1 = head from by omega]
        exact getD_set_self _ _ _ _ (by rw [hnb_len]; omega)
  · -- no growth needed
    rw [push_eq_not_full true ⟨buf, cap, head, tail⟩ ev hfull]
    dsimp only
    have hm1 : (head + 1) % cap = if head + 1 < cap then head + 1 else 0 := by
      rcases Nat.lt_or_ge (head + 1) cap with h1 | h1
      · rw [if_pos h1]; exact Nat.mod_eq_of_lt h1
      · have h2 : head + 1 = cap := by omega
        rw [if_neg (by omega), h2, Nat.mod_self]
    rw [hm1] at hfull ⊢
    rcases Nat.lt_or_ge (head + 1) cap with hlt | hge
    · rw [if_pos hlt] at hfull ⊢
      refine ⟨rfl, ⟨by dsimp only; rw [List.length_set, hlen],
        by dsimp only; omega, by dsimp only; omega, by dsimp only; omega⟩, ?_⟩
      apply toList_push_shape
      · unfold EventBuf.size; dsimp only; split_ifs <;> omega
      · intro i hi
        have hi2 := hi
        unfold EventBuf.size at hi2; dsimp only at hi2
        unfold EventBuf.read; dsimp only
        by_cases hcase : tail + i < cap
        · rw [if_pos hcase, if_pos hcase,
              getD_set_ne _ _ _ _ _ (by split_ifs at hi2 <;> omega)]
        · rw [if_neg hcase, if_neg hcase,
              getD_set_ne _ _ _ _ _ (by split_ifs at hi2 <;> omega)]
      · unfold EventBuf.size EventBuf.read; dsimp only
        by_cases htle : tail ≤ head
        · rw [if_pos htle, if_pos (by omega),
              show tail + (head - tail) = head from by omega]
          exact getD_set_self _ _ _ _ (by rw [hlen]; omega)
        · rw [if_neg htle, if_neg (by omega),
              show tail + (head + cap - tail) - cap = head from by omega]
          exact getD_set_self _ _ _ _ (by rw [hlen]; omega)
    · have hco : head + 1 = cap := by omega
      rw [if_neg (by omega)] at hfull ⊢
      refine ⟨rfl, ⟨by dsimp only; rw [List.length_set, hlen],
        by dsimp only; omega, by dsimp only; omega, by dsimp only; omega⟩, ?_⟩
      apply toList_push_shape
      · unfold EventBuf.size; dsimp only; split_ifs <;> omega
      · intro i hi
        have hi2 := hi
        unfold EventBuf.size at hi2; dsimp only at hi2
        unfold EventBuf.read; dsimp only
        by_cases hcase : tail + i < cap
        · rw [if_pos hcase, if_pos hcase,
              getD_set_ne _ _ _ _ _ (by split_ifs at hi2 <;> omega)]
        · rw [if_neg hcase, if_neg hcase,
              getD_set_ne _ _ _ _ _ (by split_ifs at hi2 <;> omega)]
      · unfold EventBuf.size EventBuf.read; dsimp only
        rw [if_pos (show tail ≤ head from by omega), if_pos (by omega),
            show tail + (head - tail) = head from by omega]
        exact getD_set_self _ _ _ _ (by rw [hlen]; omega)

theorem event_buf_pop_spec_empty (b : EventBuf) (hInv : b.Inv)
    (he : b.event_buf_head = b.event_buf_tail) :
    event_buf_pop b = (none, b) ∧ b.toList = [] := by
  refine ⟨pop_eq_empty b he, ?_⟩
  have hsz : b.size = 0 := by
    obtain ⟨hlen, hcap, hh, ht⟩ := hInv
    unfold EventBuf.size; split_ifs <;> omega
  unfold EventBuf.toList
  rw [hsz]; rfl

theorem event_buf_pop_spec_cons (b : EventBuf) (hInv : b.Inv)
    (hne : ¬ b.event_buf_head = b.event_buf_tail) :
    (event_buf_pop b).1 = some (b.read 0) ∧ (event_buf_pop b).2.Inv ∧
    b.toList = b.read 0 :: (event_buf_pop b).2.toList := by
  obtain ⟨buf, cap, head, tail⟩ := b
  obtain ⟨hlen, hcap, hh, ht⟩ := hInv
  dsimp only at hlen hcap hh ht hne
  rw [pop_eq_ne _ hne]
  dsimp only
  have hr0 : EventBuf.read ⟨buf, cap, head, tail⟩ 0 = buf.getD tail zeroEvent := by
    unfold EventBuf.read; dsimp only
    rw [if_pos (by omega), show tail + 0 = tail from by omega]
  have hm : (tail + 1) % cap = if tail + 1 < cap then tail + 1 else 0 := by
    rcases Nat.lt_or_ge (tail + 1) cap with h1 | h1
    · rw [if_pos h1]; exact Nat.mod_eq_of_lt h1
    · have h2 : tail + 1 = cap := by omega
      rw [if_neg (by omega), h2, Nat.mod_self]
  rw [hm]
  rcases Nat.lt_or_ge (tail + 1) cap with hlt | hge
  · rw [if_pos hlt]
    refine ⟨by rw [hr0], ⟨hlen, hcap, hh, by dsimp only; omega⟩, ?_⟩
    rw [hr0]
    have := toList_pop_shape ⟨buf, cap, head, tail⟩ ⟨buf, cap, head, tail + 1⟩
      (by unfold EventBuf.size; dsimp only; split_ifs <;> omega)
      (by
        intro i hi
        unfold EventBuf.read; dsimp only
        rw [show tail + 1 + i = tail + (i + 1) from by omega])
    rw [this, hr0]
  · have hco : tail + 1 = cap := by omega
    rw [if_neg (by omega)]
    refine ⟨by rw [hr0], ⟨hlen, hcap, hh, by dsimp only; omega⟩, ?_⟩
    rw [hr0]
    have := toList_pop_shape ⟨buf, cap, head, tail⟩ ⟨buf, cap, head, 0⟩
      (by unfold EventBuf.size; dsimp only; split_ifs <;> omega)
      (by
        intro i hi
        have hi2 := hi
        unfold EventBuf.size at hi2; dsimp only at hi2
        unfold EventBuf.read; dsimp only
        rw [if_pos (by split_ifs at hi2 <;> omega), if_neg (by omega)]
        simp only [Nat.zero_add]
        rw [show tail + (i + 1) - cap = i from by omega])
    rw [this, hr0]

theorem mkEventBuf_Inv (cap : Nat) (hc : 0 < cap) : (mkEventBuf cap).Inv :=
  ⟨by simp [mkEventBuf], hc, hc, hc⟩

theorem mkEventBuf_size (cap : Nat) : (mkEventBuf cap).size = 0 := by
  unfold mkEventBuf EventBuf.size; simp

theorem mkEventBuf_toList (cap : Nat) : (mkEventBuf cap).toList = [] := by
  unfold EventBuf.toList; rw [mkEventBuf_size]; rfl

/-! ### Arbitrary push/pop interleavings -/

/-- One operation on the ring buffer. -/
inductive QueueOp where
  | push (ev : MtraceCsEvent)
  | pop
deriving DecidableEq, Repr

/-- Run a sequence of operations (pushes always with a working allocator),
collecting the values returned by the pops in order. -/
def runQueueOps : List QueueOp → EventBuf → EventBuf × List MtraceCsEvent
  | [], b => (b, [])
  | QueueOp.push ev :: ops, b => runQueueOps ops (event_buf_push true b ev).2
  | QueueOp.pop :: ops, b =>
      let r := event_buf_pop b
      let s := runQueueOps ops r.2
      (s.1, (match r.1 with | some x => [x] | none => []) ++ s.2)

/-- The pushed values of an operation sequence, in order. -/
def pushedValues : List QueueOp → List MtraceCsEvent
  | [] => []
  | QueueOp.push ev :: ops => ev :: pushedValues ops
  | QueueOp.pop :: ops => pushedValues ops

def numPops : List QueueOp → Nat
  | [] => 0
  | QueueOp.push _ :: ops => numPops ops
  | QueueOp.pop :: ops => numPops ops + 1

/-- Pops never outnumber pushes-so-far, starting from pending live
elements already in the queue. -/
def validOps : Nat → List QueueOp → Bool
  | _, [] => true
  | pending, QueueOp.push _ :: ops => validOps (pending + 1) ops
  | pending, QueueOp.pop :: ops => decide (0 < pending) && validOps (pending - 1) ops

theorem runQueueOps_spec (ops : List QueueOp) : ∀ (b : EventBuf), b.Inv →
    validOps b.size ops = true →
    (runQueueOps ops b).2 = (b.toList ++ pushedValues ops).take (numPops ops) := by
  induction ops with
  | nil =>
    intro b hInv hv
    simp [runQueueOps, pushedValues, numPops]
  | cons op ops ih =>
    intro b hInv hv
    cases op with
    | push ev =>
      obtain ⟨hret, hinv2, hlist⟩ := event_buf_push_true_spec b ev hInv
      have hsz : (event_buf_push true b ev).2.size = b.size + 1 := by
        have h1 := EventBuf.length_toList (event_buf_push true b ev).2
        have h2 := EventBuf.length_toList b
        rw [hlist] at h1
        simp at h1
        omega
      simp only [validOps] at hv
      simp only [runQueueOps, pushedValues, numPops]
      rw [ih _ hinv2 (by rw [hsz]; exact hv), hlist, List.append_assoc,
        List.singleton_append]
    | pop =>
      simp only [validOps, Bool.and_eq_true, decide_eq_true_eq] at hv
      obtain ⟨hpos, hv2⟩ := hv
      have hne : ¬ b.event_buf_head = b.event_buf_tail := (size_pos_iff b hInv).mp hpos
      obtain ⟨hp1, hinv2, hlist⟩ := event_buf_pop_spec_cons b hInv hne
      have hsz : (event_buf_pop b).2.size = b.size - 1 := by
        have h1 := EventBuf.length_toList (event_buf_pop b).2
        have h2 := EventBuf.length_toList b
        rw [hlist] at h2
        simp at h2
        omega
      simp only [runQueueOps, pushedValues, numPops]
      rw [hp1]
      dsimp only
      rw [ih _ hinv2 (by rw [hsz]; exact hv2), hlist]
      simp

/-! ### The OpenCSD generic trace element and the classifier callback -/

/-- Modelled from the spec: the element kinds of the external OpenCSD
generic trace element (ocsd_gen_trc_elem_t).  The binding handles five of
them; the remaining kinds (context changes, timestamp-only markers,
synchronisation markers, etc.) all reach the default arm of the switch. -/
inductive OcsdGenElemType
  | instr_range
  | trace_on
  | trace_off
  | exception
  | exception_ret
  | unknown
  | no_sync
  | pe_context
  | addr_nacc
  | timestamp_marker
  | cycle_count
  | event_marker
  | sync_marker
  | memtrans
  | custom
deriving DecidableEq, Repr

/-- Modelled from the spec: the instruction-type classification of the
terminating instruction of a range (ocsd_instr_type of the external
library); OCSD_INSTR_BR is a direct branch, OCSD_INSTR_BR_INDIRECT an
indirect one. -/
inductive OcsdInstrType
  | other
  | br
  | br_indirect
  | isb
  | dsb_dmb
  | wfi_wfx
deriving DecidableEq, Repr

/-- Modelled from the spec: the fields of the external engine generic
trace element (ocsd_generic_trace_elem) read by gen_elem_callback.
Unsigned machine integers are Nat; ctxt_id is the uint32 context.ctxt_id. -/
structure OcsdGenericTraceElem where
  elem_type : OcsdGenElemType
  timestamp : Nat
  st_addr : Nat
  en_addr : Nat
  last_instr_type : OcsdInstrType
  exception_number : Nat
  ctxt_id : Nat
deriving DecidableEq, Repr

/-- The datapath response returned by the callback to the engine:
OCSD_RESP_CONT or OCSD_RESP_FATAL_SYS_ERR. -/
inductive OcsdDatapathResp
  | cont
  | fatal_sys_err
deriving DecidableEq, Repr

/-- The C cast (int)x applied to a uint32 value. -/
def int32cast (n : Nat) : Int :=
  if n % 2 ^ 32 < 2 ^ 31 then (n % 2 ^ 32 : Int) else (n % 2 ^ 32 : Int) - 2 ^ 32

/-- snprintf into the 256-byte error_msg field: at most 255 characters
are stored. -/
def latchMsg (s : String) : String := s.take 255

/-- struct mtrace_opencsd_decoder: the ring buffer plus the latched error
state (the dcd_tree handle is an abstract pointer into the engine). -/
structure MtraceOpencsdDecoder where
  event_buf : EventBuf
  error_flag : Bool
  error_msg : String
deriving DecidableEq, Repr

/-- gen_elem_callback from opencsd_binding.c.  The event is zero-filled
(memset), its timestamp copied from the element, then the switch on
elem_type either fills the event in and falls through to the push, or
returns OCSD_RESP_CONT without touching the queue.  A failed push latches
the error state and returns OCSD_RESP_FATAL_SYS_ERR. -/
def gen_elem_callback (allocOk : Bool) (dec : MtraceOpencsdDecoder)
    (elem : OcsdGenericTraceElem) : MtraceOpencsdDecoder × OcsdDatapathResp :=
  let evBase : MtraceCsEvent :=
    { kind := .instruction_range, timestamp := elem.timestamp, from_addr := 0,
      to_addr := 0, cpu := 0, exception_number := 0 }
  let evOpt : Option MtraceCsEvent :=
    match elem.elem_type with
    | .instr_range =>
        some { evBase with
               kind := if elem.last_instr_type = .br_indirect then .ret
                       else if elem.last_instr_type = .br then .call
                       else .instruction_range,
               from_addr := elem.st_addr,
               to_addr := elem.en_addr,
               cpu := int32cast elem.ctxt_id }
    | .trace_on =>
        some { evBase with kind := .trace_on, from_addr := elem.st_addr }
    | .trace_off =>
        some { evBase with kind := .trace_off, from_addr := elem.st_addr }
    | .exception =>
        some { evBase with
               kind := .exception,
               from_addr := elem.st_addr,
               exception_number := elem.exception_number }
    | .exception_ret =>
        some { evBase with kind := .exception_ret, from_addr := elem.st_addr }
    | _ => none
  match evOpt with
  | none => (dec, .cont)
  | some ev =>
      let r := event_buf_push allocOk dec.event_buf ev
      if r.1 ≠ 0 then
        ({ dec with event_buf := r.2, error_flag := true,
                    error_msg := latchMsg "opencsd: event buffer allocation failed" },
         .fatal_sys_err)
      else
        ({ dec with event_buf := r.2 }, .cont)

/-! ### Session-level operations -/

/-- Modelled from the spec: engine status codes of the external library
that this layer distinguishes (OCSD_OK, OCSD_ERR_UNSUPP_DECODE_PKT,
OCSD_ERR_FLUSH_COMPLETE, and any other error code). -/
inductive OcsdErr
  | ok
  | unsupp_decode_pkt
  | flush_complete
  | fail (code : Nat)
deriving DecidableEq, Repr

/-- Modelled from the spec: ocsd_err_str of the external library, a
human-readable rendering of a status code. -/
def ocsd_err_str : OcsdErr → String
  | .ok => "OCSD_OK"
  | .unsupp_decode_pkt => "OCSD_ERR_UNSUPP_DECODE_PKT"
  | .flush_complete => "OCSD_ERR_FLUSH_COMPLETE"
  | .fail code => "OCSD_ERR (" ++ toString code ++ ")"

/-- Modelled from the spec: what one ocsd_dt_process_data call by the
external engine does, as an oracle: the decoded elements it reports
through the callback, its final status and the consumed byte count. -/
structure EngineStep where
  elems : List OcsdGenericTraceElem
  err : OcsdErr
  bytes_used : Nat
deriving DecidableEq, Repr

/-- Modelled from the spec: the engine invokes the callback once per
decoded element, synchronously, and stops calling back after a fatal
response. -/
def feedElems (allocOk : Bool) (dec : MtraceOpencsdDecoder) :
    List OcsdGenericTraceElem → MtraceOpencsdDecoder
  | [] => dec
  | e :: es =>
      let r := gen_elem_callback allocOk dec e
      match r.2 with
      | .fatal_sys_err => r.1
      | .cont => feedElems allocOk r.1 es

/-- mtrace_opencsd_decode from opencsd_binding.c.  Returns the consumed
byte count cast to int, or -1.  The engine behaviour (callbacks, status,
bytes consumed) is the oracle step. -/
def mtrace_opencsd_decode (step : EngineStep) (allocOk : Bool)
    (dec : MtraceOpencsdDecoder) (data_index : Nat) : Int × MtraceOpencsdDecoder :=
  if dec.error_flag then (-1, dec)
  else
    let dec1 := feedElems allocOk dec step.elems
    if step.err ≠ .ok ∧ step.err ≠ .unsupp_decode_pkt then
      (-1, { dec1 with
             error_flag := true,
             error_msg := latchMsg ("opencsd: decode error at index "
               ++ toString data_index ++ ": " ++ ocsd_err_str step.err) })
    else
      (int32cast step.bytes_used, dec1)

/-- mtrace_opencsd_flush from opencsd_binding.c.  Note: a bad status makes
flush return -1 but, unlike decode, it does not latch the error state. -/
def mtrace_opencsd_flush (step : EngineStep) (allocOk : Bool)
    (dec : MtraceOpencsdDecoder) : Int × MtraceOpencsdDecoder :=
  if dec.error_flag then (-1, dec)
  else
    let dec1 := feedElems allocOk dec step.elems
    (if step.err = .ok ∨ step.err = .flush_complete then 0 else -1, dec1)

/-- mtrace_opencsd_add_image from opencsd_binding.c.  The engine verdict
on ocsd_dt_add_named_mem_acc is the oracle engErr.  On rejection the
error_msg buffer is overwritten (snprintf) but error_flag is not set. -/
def mtrace_opencsd_add_image (engErr : OcsdErr) (dec : MtraceOpencsdDecoder)
    (filename : String) (load_address offset size : Nat) :
    Int × MtraceOpencsdDecoder :=
  if engErr ≠ .ok then
    (-1, { dec with
           error_msg := latchMsg ("opencsd: add_named_mem_acc failed for "
             ++ filename ++ ": " ++ ocsd_err_str engErr) })
  else
    (0, dec)

/-- mtrace_opencsd_next_event from opencsd_binding.c: a bare pop. -/
def mtrace_opencsd_next_event (dec : MtraceOpencsdDecoder) :
    Option MtraceCsEvent × MtraceOpencsdDecoder :=
  let r := event_buf_pop dec.event_buf
  (r.1, { dec with event_buf := r.2 })

/-- mtrace_opencsd_has_error from opencsd_binding.c. -/
def mtrace_opencsd_has_error (dec : MtraceOpencsdDecoder) : Bool :=
  dec.error_flag

/-- mtrace_opencsd_error_msg from opencsd_binding.c. -/
def mtrace_opencsd_error_msg (dec : MtraceOpencsdDecoder) : String :=
  dec.error_msg

/-- mtrace_opencsd_create from opencsd_binding.c.  External outcomes are
oracles: sessionAllocOk (calloc of the struct), bufAllocOk (malloc of the
256-slot ring), treeOk (ocsd_create_dcd_tree), decoderErr
(ocsd_dt_create_decoder).  Returns none exactly where the C code returns
NULL; note that when tree creation fails the partially built session is freed and
NULL is returned, while a decoder-creation failure latches the error state
and still returns the session. -/
def mtrace_opencsd_create (sessionAllocOk bufAllocOk treeOk : Bool)
    (decoderErr : OcsdErr) (protocol : Int) (trace_id : Nat) (arch_version : Int) :
    Option MtraceOpencsdDecoder :=
  if !sessionAllocOk then none
  else if !bufAllocOk then none
  else if !treeOk then none
  else
    let dec : MtraceOpencsdDecoder :=
      { event_buf := mkEventBuf 256, error_flag := false, error_msg := "" }
    if decoderErr ≠ .ok then
      some { dec with
             error_flag := true,
             error_msg := latchMsg ("opencsd: ocsd_dt_create_decoder failed: "
               ++ ocsd_err_str decoderErr) }
    else
      some dec

/-- Drain the queue by repeated mtrace_opencsd_next_event calls (fuel
bounds the recursion; fuel at least the queue size drains everything). -/
def drainFuel : Nat → MtraceOpencsdDecoder → List MtraceCsEvent
  | 0, _ => []
  | n + 1, dec =>
      match mtrace_opencsd_next_event dec with
      | (some ev, dec2) => ev :: drainFuel n dec2
      | (none, _) => []

/-- Drain every event currently queued. -/
def drainEvents (dec : MtraceOpencsdDecoder) : List MtraceCsEvent :=
  drainFuel dec.event_buf.size dec

/-! ### Claim theorems -/

/-- Claim C1: the event queue is strict FIFO across growth: for every
sequence of pushes and pops (pops never outnumbering pushes-so-far, the
allocator succeeding), including sequences long enough to trigger
capacity-doubling resizes while the live region wraps, the sequence of
values returned by pop equals the sequence of pushed values in order,
with no duplication, loss, or reordering. -/
theorem c1_queue_fifo (cap : Nat) (ops : List QueueOp) (hc : 0 < cap)
    (hv : validOps 0 ops = true) :
    (runQueueOps ops (mkEventBuf cap)).2 = (pushedValues ops).take (numPops ops) := by
  have h := runQueueOps_spec ops (mkEventBuf cap) (mkEventBuf_Inv cap hc)
    (by rw [mkEventBuf_size]; exact hv)
  rw [h, mkEventBuf_toList, List.nil_append]

/-- An event distinguished by its timestamp, for concrete test runs. -/
def tsEvent (n : Nat) : MtraceCsEvent := { zeroEvent with timestamp := n }

/-- A concrete operation sequence on a capacity-4 queue that triggers two
growth events, the first with a wrapped live region. -/
def c1ops : List QueueOp :=
  [QueueOp.push (tsEvent 1), QueueOp.push (tsEvent 2), QueueOp.push (tsEvent 3),
   QueueOp.pop, QueueOp.push (tsEvent 4), QueueOp.push (tsEvent 5),
   QueueOp.push (tsEvent 6), QueueOp.push (tsEvent 7), QueueOp.push (tsEvent 8),
   QueueOp.push (tsEvent 9), QueueOp.pop, QueueOp.pop, QueueOp.pop, QueueOp.pop,
   QueueOp.pop, QueueOp.pop, QueueOp.pop, QueueOp.pop]

example : (runQueueOps c1ops (mkEventBuf 4)).2 =
    [tsEvent 1, tsEvent 2, tsEvent 3, tsEvent 4, tsEvent 5, tsEvent 6,
     tsEvent 7, tsEvent 8, tsEvent 9] := by decide

theorem c1_queue_fifo_witness :
    0 < 4 ∧ validOps 0 c1ops = true ∧
    (runQueueOps c1ops (mkEventBuf 4)).2 = (pushedValues c1ops).take (numPops c1ops) :=
  ⟨by decide, by decide, c1_queue_fifo 4 c1ops (by decide) (by decide)⟩

/-- Claim C3: queue growth is atomic on allocation failure: when push
triggers growth and the reallocation fails, push returns -1 and the queue
(contents, capacity, head, tail) is exactly as before the call; the same
queue still accepts the push once allocation succeeds. -/
theorem c3_growth_failure_atomic (b : EventBuf) (ev : MtraceCsEvent) (h : b.Inv)
    (hfull : (b.event_buf_head + 1) % b.event_buf_cap = b.event_buf_tail) :
    event_buf_push false b ev = (-1, b) ∧ (event_buf_push true b ev).1 = 0 :=
  ⟨push_eq_alloc_fail b ev hfull, (event_buf_push_true_spec b ev h).1⟩

/-- A full capacity-4 ring (one slot kept empty): the next push grows. -/
def c3buf : EventBuf := ⟨List.replicate 4 zeroEvent, 4, 3, 0⟩

theorem c3_growth_failure_atomic_witness :
    c3buf.Inv ∧
    (c3buf.event_buf_head + 1) % c3buf.event_buf_cap = c3buf.event_buf_tail ∧
    (event_buf_push false c3buf zeroEvent = (-1, c3buf) ∧
     (event_buf_push true c3buf zeroEvent).1 = 0) :=
  ⟨by decide, by decide,
   c3_growth_failure_atomic c3buf zeroEvent (by decide) (by decide)⟩

/-- Claim C2: the element classifier maps decoded elements exactly per the
seven rules: an instruction-range element with an indirect terminating
branch yields Return, with a direct branch Call, otherwise
InstructionRange (each carrying from = st_addr and to = en_addr);
trace-on yields TraceOn, trace-off TraceOff, an exception element yields
Exception carrying the engine exception number, an exception-return
yields ExceptionReturn; every other element kind produces no event and
leaves the queue and session unchanged. -/
theorem c2_classifier_rules (dec : MtraceOpencsdDecoder)
    (elem : OcsdGenericTraceElem) (h : dec.event_buf.Inv) :
    (elem.elem_type = .instr_range → elem.last_instr_type = .br_indirect →
      ∃ ev, (gen_elem_callback true dec elem).1.event_buf.toList
              = dec.event_buf.toList ++ [ev] ∧
            (gen_elem_callback true dec elem).2 = .cont ∧
            ev.kind = .ret ∧ ev.from_addr = elem.st_addr ∧
            ev.to_addr = elem.en_addr) ∧
    (elem.elem_type = .instr_range → elem.last_instr_type ≠ .br_indirect →
      elem.last_instr_type = .br →
      ∃ ev, (gen_elem_callback true dec elem).1.event_buf.toList
              = dec.event_buf.toList ++ [ev] ∧
            (gen_elem_callback true dec elem).2 = .cont ∧
            ev.kind = .call ∧ ev.from_addr = elem.st_addr ∧
            ev.to_addr = elem.en_addr) ∧
    (elem.elem_type = .instr_range → elem.last_instr_type ≠ .br_indirect →
      elem.last_instr_type ≠ .br →
      ∃ ev, (gen_elem_callback true dec elem).1.event_buf.toList
              = dec.event_buf.toList ++ [ev] ∧
            (gen_elem_callback true dec elem).2 = .cont ∧
            ev.kind = .instruction_range ∧ ev.from_addr = elem.st_addr ∧
            ev.to_addr = elem.en_addr) ∧
    (elem.elem_type = .trace_on →
      ∃ ev, (gen_elem_callback true dec elem).1.event_buf.toList
              = dec.event_buf.toList ++ [ev] ∧
            (gen_elem_callback true dec elem).2 = .cont ∧
            ev.kind = .trace_on ∧ ev.from_addr = elem.st_addr) ∧
    (elem.elem_type = .trace_off →
      ∃ ev, (gen_elem_callback true dec elem).1.event_buf.toList
              = dec.event_buf.toList ++ [ev] ∧
            (gen_elem_callback true dec elem).2 = .cont ∧
            ev.kind = .trace_off ∧ ev.from_addr = elem.st_addr) ∧
    (elem.elem_type = .exception →
      ∃ ev, (gen_elem_callback true dec elem).1.event_buf.toList
              = dec.event_buf.toList ++ [ev] ∧
            (gen_elem_callback true dec elem).2 = .cont ∧
            ev.kind = .exception ∧ ev.from_addr = elem.st_addr ∧
            ev.exception_number = elem.exception_number) ∧
    (elem.elem_type = .exception_ret →
      ∃ ev, (gen_elem_callback true dec elem).1.event_buf.toList
              = dec.event_buf.toList ++ [ev] ∧
            (gen_elem_callback true dec elem).2 = .cont ∧
            ev.kind = .exception_ret ∧ ev.from_addr = elem.st_addr) ∧
    (elem.elem_type ≠ .instr_range → elem.elem_type ≠ .trace_on →
     elem.elem_type ≠ .trace_off → elem.elem_type ≠ .exception →
     elem.elem_type ≠ .exception_ret →
      gen_elem_callback true dec elem = (dec, .cont)) := by
  obtain ⟨et, ts, st, en, lit, exn, ctx⟩ := elem
  dsimp only
  have hcbIR : gen_elem_callback true dec ⟨.instr_range, ts, st, en, lit, exn, ctx⟩
      = ({ dec with event_buf := (event_buf_push true dec.event_buf
            ⟨if lit = .br_indirect then .ret
             else if lit = .br then .call
             else .instruction_range, ts, st, en, int32cast ctx, 0⟩).2 }, .cont) := by
    simp only [gen_elem_callback]
    dsimp only
    rw [if_neg (by simp [(event_buf_push_true_spec dec.event_buf _ h).1])]
  have hcbON : gen_elem_callback true dec ⟨.trace_on, ts, st, en, lit, exn, ctx⟩
      = ({ dec with event_buf := (event_buf_push true dec.event_buf
            ⟨.trace_on, ts, st, 0, 0, 0⟩).2 }, .cont) := by
    simp only [gen_elem_callback]
    rw [if_neg (by simp [(event_buf_push_true_spec dec.event_buf _ h).1])]
  have hcbOFF : gen_elem_callback true dec ⟨.trace_off, ts, st, en, lit, exn, ctx⟩
      = ({ dec with event_buf := (event_buf_push true dec.event_buf
            ⟨.trace_off, ts, st, 0, 0, 0⟩).2 }, .cont) := by
    simp only [gen_elem_callback]
    rw [if_neg (by simp [(event_buf_push_true_spec dec.event_buf _ h).1])]
  have hcbEX : gen_elem_callback true dec ⟨.exception, ts, st, en, lit, exn, ctx⟩
      = ({ dec with event_buf := (event_buf_push true dec.event_buf
            ⟨.exception, ts, st, 0, 0, exn⟩).2 }, .cont) := by
    simp only [gen_elem_callback]
    rw [if_neg (by simp [(event_buf_push_true_spec dec.event_buf _ h).1])]
  have hcbER : gen_elem_callback true dec ⟨.exception_ret, ts, st, en, lit, exn, ctx⟩
      = ({ dec with event_buf := (event_buf_push true dec.event_buf
            ⟨.exception_ret, ts, st, 0, 0, 0⟩).2 }, .cont) := by
    simp only [gen_elem_callback]
    rw [if_neg (by simp [(event_buf_push_true_spec dec.event_buf _ h).1])]
  refine ⟨?_, ?_, ?_, ?_, ?_, ?_, ?_, ?_⟩
  · intro het hlit
    subst het
    exact ⟨_, by rw [hcbIR]; exact (event_buf_push_true_spec dec.event_buf _ h).2.2,
           by rw [hcbIR], by simp [hlit], rfl, rfl⟩
  · intro het hlit1 hlit2
    subst het
    exact ⟨_, by rw [hcbIR]; exact (event_buf_push_true_spec dec.event_buf _ h).2.2,
           by rw [hcbIR], by simp [hlit1, hlit2], rfl, rfl⟩
  · intro het hlit1 hlit2
    subst het
    exact ⟨_, by rw [hcbIR]; exact (event_buf_push_true_spec dec.event_buf _ h).2.2,
           by rw [hcbIR], by simp [hlit1, hlit2], rfl, rfl⟩
  · intro het
    subst het
    exact ⟨_, by rw [hcbON]; exact (event_buf_push_true_spec dec.event_buf _ h).2.2,
           by rw [hcbON], rfl, rfl⟩
  · intro het
    subst het
    exact ⟨_, by rw [hcbOFF]; exact (event_buf_push_true_spec dec.event_buf _ h).2.2,
           by rw [hcbOFF], rfl, rfl⟩
  · intro het
    subst het
    exact ⟨_, by rw [hcbEX]; exact (event_buf_push_true_spec dec.event_buf _ h).2.2,
           by rw [hcbEX], rfl, rfl, rfl⟩
  · intro het
    subst het
    exact ⟨_, by rw [hcbER]; exact (event_buf_push_true_spec dec.event_buf _ h).2.2,
           by rw [hcbER], rfl, rfl⟩
  · intro h1 h2 h3 h4 h5
    cases et with
    | instr_range => exact absurd rfl h1
    | trace_on => exact absurd rfl h2
    | trace_off => exact absurd rfl h3
    | exception => exact absurd rfl h4
    | exception_ret => exact absurd rfl h5
    | unknown => rfl
    | no_sync => rfl
    | pe_context => rfl
    | addr_nacc => rfl
    | timestamp_marker => rfl
    | cycle_count => rfl
    | event_marker => rfl
    | sync_marker => rfl
    | memtrans => rfl
    | custom => rfl

/-- A fresh session with a small queue, for concrete runs. -/
def dec0 : MtraceOpencsdDecoder :=
  { event_buf := mkEventBuf 4, error_flag := false, error_msg := "" }

/-- An instruction-range element terminated by an indirect branch. -/
def c2elem : OcsdGenericTraceElem :=
  ⟨.instr_range, 0, 4096, 4112, .br_indirect, 0, 0⟩

theorem c2_classifier_rules_witness :
    ∃ ev, (gen_elem_callback true dec0 c2elem).1.event_buf.toList
            = dec0.event_buf.toList ++ [ev] ∧
          (gen_elem_callback true dec0 c2elem).2 = .cont ∧
          ev.kind = .ret ∧ ev.from_addr = c2elem.st_addr ∧
          ev.to_addr = c2elem.en_addr :=
  (c2_classifier_rules dec0 c2elem (by decide)).1 rfl rfl

/-- Claim C4: whenever a push performed inside the classifier callback
fails (full ring, allocator exhausted), the callback returns
OCSD_RESP_FATAL_SYS_ERR, sets the error flag, stores the descriptive
message, and leaves the queue untouched. -/
theorem latch_fail_msg :
    latchMsg "opencsd: event buffer allocation failed"
      = "opencsd: event buffer allocation failed" := by decide

theorem c4_push_failure_latches (dec : MtraceOpencsdDecoder)
    (elem : OcsdGenericTraceElem)
    (hfull : (dec.event_buf.event_buf_head + 1) % dec.event_buf.event_buf_cap
               = dec.event_buf.event_buf_tail)
    (hkind : elem.elem_type = .instr_range ∨ elem.elem_type = .trace_on ∨
             elem.elem_type = .trace_off ∨ elem.elem_type = .exception ∨
             elem.elem_type = .exception_ret) :
    (gen_elem_callback false dec elem).2 = .fatal_sys_err ∧
    (gen_elem_callback false dec elem).1.error_flag = true ∧
    (gen_elem_callback false dec elem).1.error_msg
      = "opencsd: event buffer allocation failed" ∧
    (gen_elem_callback false dec elem).1.event_buf = dec.event_buf := by
  obtain ⟨et, ts, st, en, lit, exn, ctx⟩ := elem
  have hpush : ∀ ev, event_buf_push false dec.event_buf ev = (-1, dec.event_buf) :=
    fun ev => push_eq_alloc_fail dec.event_buf ev hfull
  dsimp only at hkind
  rcases hkind with h1 | h1 | h1 | h1 | h1 <;> subst h1 <;>
    simp only [gen_elem_callback] <;>
    rw [hpush, if_pos (by simp)] <;>
    exact ⟨rfl, rfl, latch_fail_msg, rfl⟩

/-- A session whose ring is full (next push must grow). -/
def decFull : MtraceOpencsdDecoder :=
  { event_buf := c3buf, error_flag := false, error_msg := "" }

/-- A trace-on element for the failure run. -/
def c4elem : OcsdGenericTraceElem := ⟨.trace_on, 0, 8192, 0, .other, 0, 0⟩

theorem c4_push_failure_latches_witness :
    ((decFull.event_buf.event_buf_head + 1) % decFull.event_buf.event_buf_cap
       = decFull.event_buf.event_buf_tail) ∧
    ((gen_elem_callback false decFull c4elem).2 = .fatal_sys_err ∧
     (gen_elem_callback false decFull c4elem).1.error_flag = true ∧
     (gen_elem_callback false decFull c4elem).1.error_msg
       = "opencsd: event buffer allocation failed" ∧
     (gen_elem_callback false decFull c4elem).1.event_buf = decFull.event_buf) :=
  ⟨by decide,
   c4_push_failure_latches decFull c4elem (by decide) (Or.inr (Or.inl rfl))⟩

/-- Claim C5: the errored state is sticky and fails fast: with the error
flag set, decode returns -1 immediately with the session unchanged
regardless of anything the engine might have done (so the engine is never
consulted), no operation clears the flag, and hasError stays true. -/
theorem c5_error_sticky (dec : MtraceOpencsdDecoder) (h : dec.error_flag = true) :
    (∀ step allocOk data_index,
       mtrace_opencsd_decode step allocOk dec data_index = (-1, dec)) ∧
    (∀ step allocOk, mtrace_opencsd_flush step allocOk dec = (-1, dec)) ∧
    (∀ engErr fn la off sz,
       ((mtrace_opencsd_add_image engErr dec fn la off sz).2).error_flag = true) ∧
    ((mtrace_opencsd_next_event dec).2.error_flag = true) ∧
    (∀ allocOk elem, ((gen_elem_callback allocOk dec elem).1).error_flag = true) ∧
    mtrace_opencsd_has_error dec = true := by
  refine ⟨?_, ?_, ?_, ?_, ?_, h⟩
  · intro step allocOk data_index
    simp [mtrace_opencsd_decode, h]
  · intro step allocOk
    simp [mtrace_opencsd_flush, h]
  · intro engErr fn la off sz
    unfold mtrace_opencsd_add_image
    split_ifs <;> exact h
  · exact h
  · intro allocOk elem
    obtain ⟨et, ts, st, en, lit, exn, ctx⟩ := elem
    cases et <;>
      first
        | exact h
        | (simp only [gen_elem_callback]
           split_ifs <;> first | rfl | exact h)

/-- A session already latched into the errored state. -/
def decErr : MtraceOpencsdDecoder :=
  { event_buf := mkEventBuf 4, error_flag := true, error_msg := "boom" }

theorem c5_error_sticky_witness :
    decErr.error_flag = true ∧
    mtrace_opencsd_decode ⟨[], .fail 3, 0⟩ true decErr 7 = (-1, decErr) ∧
    mtrace_opencsd_has_error decErr = true :=
  ⟨rfl, (c5_error_sticky decErr rfl).1 ⟨[], .fail 3, 0⟩ true 7,
   (c5_error_sticky decErr rfl).2.2.2.2.2⟩

theorem drainFuel_toList (n : Nat) : ∀ dec : MtraceOpencsdDecoder,
    dec.event_buf.Inv → dec.event_buf.size ≤ n →
    drainFuel n dec = dec.event_buf.toList := by
  induction n with
  | zero =>
    intro dec hInv hsz
    have h0 : dec.event_buf.toList.length = 0 := by
      rw [EventBuf.length_toList]; omega
    rw [List.length_eq_zero] at h0
    simp [drainFuel, h0]
  | succ k ih =>
    intro dec hInv hsz
    by_cases he : dec.event_buf.event_buf_head = dec.event_buf.event_buf_tail
    · obtain ⟨hpop, hnil⟩ := event_buf_pop_spec_empty dec.event_buf hInv he
      simp [drainFuel, mtrace_opencsd_next_event, hpop, hnil]
    · obtain ⟨hp1, hinv2, hlist⟩ := event_buf_pop_spec_cons dec.event_buf hInv he
      have hsz2 : (event_buf_pop dec.event_buf).2.size = dec.event_buf.size - 1 := by
        have h1 := EventBuf.length_toList (event_buf_pop dec.event_buf).2
        have h2 := EventBuf.length_toList dec.event_buf
        rw [hlist] at h2
        simp at h2
        omega
      have hstep : mtrace_opencsd_next_event dec
          = (some (dec.event_buf.read 0),
             { dec with event_buf := (event_buf_pop dec.event_buf).2 }) := by
        simp only [mtrace_opencsd_next_event]
        rw [hp1]
      rw [drainFuel, hstep]
      dsimp only
      rw [ih { dec with event_buf := (event_buf_pop dec.event_buf).2 } hinv2
        (by dsimp only; omega)]
      exact hlist.symm

/-- Claim C6: draining ignores the error state: nextEvent is a bare pop
of the event queue regardless of the error flag, so every event queued
before the error was latched remains retrievable, in order, after the
session has errored. -/
theorem c6_drain_ignores_error (dec : MtraceOpencsdDecoder) (h : dec.event_buf.Inv) :
    (mtrace_opencsd_next_event dec
       = ((event_buf_pop dec.event_buf).1,
          { dec with event_buf := (event_buf_pop dec.event_buf).2 })) ∧
    ((mtrace_opencsd_next_event { dec with error_flag := true }).1
       = (mtrace_opencsd_next_event { dec with error_flag := false }).1) ∧
    (drainEvents { dec with error_flag := true } = dec.event_buf.toList) ∧
    (drainEvents { dec with error_flag := false } = dec.event_buf.toList) := by
  refine ⟨rfl, rfl, ?_, ?_⟩
  · exact drainFuel_toList _ _ h (le_refl _)
  · exact drainFuel_toList _ _ h (le_refl _)

/-- A session with two events queued and the error flag already latched. -/
def dec6 : MtraceOpencsdDecoder :=
  { event_buf := (event_buf_push true
      (event_buf_push true (mkEventBuf 4) (tsEvent 1)).2 (tsEvent 2)).2,
    error_flag := true, error_msg := "decode error" }

theorem c6_drain_ignores_error_witness :
    dec6.event_buf.Inv ∧
    drainEvents { dec6 with error_flag := true } = dec6.event_buf.toList ∧
    drainEvents { dec6 with error_flag := true } = [tsEvent 1, tsEvent 2] :=
  ⟨by decide, (c6_drain_ignores_error dec6 (by decide)).2.2.1, by decide⟩

/-- An un-errored session and a failing engine flush step: flush returns
-1 yet neither latches the error flag nor stores a message, refuting the
claim that flush latches like feed does. -/
theorem c7_counterexample :
    (mtrace_opencsd_flush ⟨[], .fail 5, 0⟩ true dec0).1 = -1 ∧
    (mtrace_opencsd_flush ⟨[], .fail 5, 0⟩ true dec0).2.error_flag = false ∧
    (mtrace_opencsd_flush ⟨[], .fail 5, 0⟩ true dec0).2.error_msg = "" := by
  decide

/-- Claim C7 (amended): flush on an errored session fails fast without
contacting the engine; otherwise flush returns 0 exactly on OCSD_OK or
OCSD_ERR_FLUSH_COMPLETE and -1 on any other status, but it does not
itself latch the error flag or message - the session state after flush is
exactly whatever the callbacks run during the flush left behind. -/
theorem c7_flush_error_semantics (dec : MtraceOpencsdDecoder) (step : EngineStep)
    (allocOk : Bool) :
    (dec.error_flag = true → mtrace_opencsd_flush step allocOk dec = (-1, dec)) ∧
    (dec.error_flag = false →
      (mtrace_opencsd_flush step allocOk dec).2 = feedElems allocOk dec step.elems ∧
      (step.err ≠ .ok ∧ step.err ≠ .flush_complete →
        (mtrace_opencsd_flush step allocOk dec).1 = -1) ∧
      (step.err = .ok ∨ step.err = .flush_complete →
        (mtrace_opencsd_flush step allocOk dec).1 = 0)) := by
  constructor
  · intro h
    simp [mtrace_opencsd_flush, h]
  · intro h
    have hbase : mtrace_opencsd_flush step allocOk dec
        = (if step.err = .ok ∨ step.err = .flush_complete then 0 else -1,
           feedElems allocOk dec step.elems) := by
      unfold mtrace_opencsd_flush
      rw [if_neg (by simp [h])]
    refine ⟨by rw [hbase], ?_, ?_⟩
    · intro hne
      rw [hbase]
      dsimp only
      rw [if_neg (by tauto)]
    · intro heq
      rw [hbase]
      dsimp only
      rw [if_pos heq]

theorem c7_flush_error_semantics_witness :
    decErr.error_flag = true ∧
    mtrace_opencsd_flush ⟨[], .fail 5, 0⟩ true decErr = (-1, decErr) :=
  ⟨rfl, (c7_flush_error_semantics decErr ⟨[], .fail 5, 0⟩ true).1 rfl⟩

/-- A session with a previously latched message: a rejected addImage call
overwrites the message buffer, refuting the claim that the latched
message is never altered by a failed addImage. -/
def c8dec : MtraceOpencsdDecoder :=
  { event_buf := mkEventBuf 4, error_flag := true, error_msg := "first error" }

theorem c8_counterexample :
    (mtrace_opencsd_add_image (.fail 1) c8dec "libfoo.so" 4194304 0 4096).1 = -1 ∧
    (mtrace_opencsd_add_image (.fail 1) c8dec "libfoo.so" 4194304 0 4096).2.error_msg
      ≠ "first error" := by
  decide

/-- Claim C8 (amended): a failed addImage is local except for the message
buffer: the call returns -1, the error flag is not altered, the queue is
untouched, but the error-message buffer is overwritten with a descriptive
message for the rejected image. -/
theorem c8_add_image_failure_local (dec : MtraceOpencsdDecoder) (engErr : OcsdErr)
    (filename : String) (la off sz : Nat) (h : engErr ≠ .ok) :
    (mtrace_opencsd_add_image engErr dec filename la off sz).1 = -1 ∧
    (mtrace_opencsd_add_image engErr dec filename la off sz).2.error_flag
      = dec.error_flag ∧
    (mtrace_opencsd_add_image engErr dec filename la off sz).2.event_buf
      = dec.event_buf ∧
    (mtrace_opencsd_add_image engErr dec filename la off sz).2.error_msg
      = latchMsg ("opencsd: add_named_mem_acc failed for " ++ filename ++ ": "
          ++ ocsd_err_str engErr) := by
  refine ⟨?_, ?_, ?_, ?_⟩ <;>
    (unfold mtrace_opencsd_add_image; rw [if_pos h])

theorem c8_add_image_failure_local_witness :
    ((OcsdErr.fail 1) ≠ OcsdErr.ok) ∧
    (mtrace_opencsd_add_image (.fail 1) c8dec "libfoo.so" 4194304 0 4096).2.error_flag
      = c8dec.error_flag :=
  ⟨by decide,
   (c8_add_image_failure_local c8dec (.fail 1) "libfoo.so" 4194304 0 4096
     (by decide)).2.1⟩

/-- Engine construction fails at decode-tree creation, after the session
and its queue were allocated: create returns none (NULL), refuting the
claim that it always returns a pre-latched non-null session. -/
theorem c9_counterexample :
    mtrace_opencsd_create true true false .ok 0 0 4 = none := by decide

/-- Claim C9 (amended): when decoder construction fails after the decode
tree was created (the session and its 256-slot queue having been
allocated), create still returns a non-null session pre-latched into the
errored state with a descriptive message; but when decode-tree creation
itself fails, the partially built session is freed and create returns null. -/
theorem c9_create_decoder_failure_latched (decoderErr : OcsdErr)
    (h : decoderErr ≠ .ok) (protocol : Int) (trace_id : Nat) (arch_version : Int) :
    mtrace_opencsd_create true true true decoderErr protocol trace_id arch_version
      = some { event_buf := mkEventBuf 256, error_flag := true,
               error_msg := latchMsg ("opencsd: ocsd_dt_create_decoder failed: "
                 ++ ocsd_err_str decoderErr) } ∧
    mtrace_opencsd_create true true false decoderErr protocol trace_id arch_version
      = none := by
  constructor
  · simp [mtrace_opencsd_create, h]
  · simp [mtrace_opencsd_create]

theorem c9_create_decoder_failure_latched_witness :
    ((OcsdErr.fail 2) ≠ OcsdErr.ok) ∧
    mtrace_opencsd_create true true true (.fail 2) 0 0 4
      = some { event_buf := mkEventBuf 256, error_flag := true,
               error_msg := latchMsg ("opencsd: ocsd_dt_create_decoder failed: "
                 ++ ocsd_err_str (.fail 2)) } :=
  ⟨by decide, (c9_create_decoder_failure_latched (.fail 2) (by decide) 0 0 4).1⟩

/-- A trace-on element with a timestamp: the C header documents cpu as -1
when unknown, and the classifier reads no context for TraceOn, yet the
produced event carries cpu = 0 (from the memset), not -1. -/
def c10elem : OcsdGenericTraceElem := ⟨.trace_on, 77, 4096, 0, .other, 0, 0⟩

theorem c10_trace_on_cpu_zero :
    (gen_elem_callback true dec0 c10elem).1.event_buf.toList
      = [{ kind := .trace_on, timestamp := 77, from_addr := 4096, to_addr := 0,
           cpu := 0, exception_number := 0 }] ∧
    ((gen_elem_callback true dec0 c10elem).1.event_buf.toList.getD 0 zeroEvent).cpu
      ≠ -1 := by
  decide
